import Mathlib

/-!
Verification of the ct-facts-exporter core: a shallow embedding of the
SQLite-backed store (`src/db.ts`), the Grafana query handlers
(`src/grafana.ts`), the ChurchTools ingestion client
(`src/churchtools-client.ts`) and the sync orchestrator (`src/sync.ts`),
together with theorems settling the frozen claims about them.

Machine numbers (`REAL` columns, JS numbers) are modelled as rationals;
`DATETIME DEFAULT CURRENT_TIMESTAMP` columns are modelled as an abstract
monotone clock value passed explicitly to each write.
-/

namespace CTFacts

/-! ## Tables

Each SQLite table is an association list from its primary key to the row
payload.  `insertRow` models `INSERT OR REPLACE`: the first row with the
same key is replaced in place, otherwise the row is appended. -/

variable {κ ρ : Type} [DecidableEq κ]

def insertRow (k : κ) (v : ρ) : List (κ × ρ) → List (κ × ρ)
  | [] => [(k, v)]
  | (k', v') :: t => if k' = k then (k, v) :: t else (k', v') :: insertRow k v t

def lookupRow (k : κ) : List (κ × ρ) → Option ρ
  | [] => none
  | (k', v') :: t => if k' = k then some v' else lookupRow k t

/-- Applying a sequence of keyed writes in order (`INSERT OR REPLACE` each). -/
def applyOps (ops : List (κ × ρ)) (l : List (κ × ρ)) : List (κ × ρ) :=
  ops.foldl (fun acc kv => insertRow kv.1 kv.2 acc) l

/-- The value of the last write to key `k` in `ops`, if any. -/
def lastVal (k : κ) : List (κ × ρ) → Option ρ
  | [] => none
  | (k0, v0) :: rest =>
    match lastVal k rest with
    | some v => some v
    | none => if k0 = k then some v0 else none

theorem lookupRow_insertRow (k j : κ) (v : ρ) (l : List (κ × ρ)) :
    lookupRow j (insertRow k v l) = if k = j then some v else lookupRow j l := by
  induction l with
  | nil => simp [insertRow, lookupRow]
  | cons hd t ih =>
    obtain ⟨k', v'⟩ := hd
    by_cases hk : k' = k
    · subst hk
      by_cases hj : k' = j <;> simp [insertRow, lookupRow, hj]
    · by_cases hj1 : k' = j
      · subst hj1
        have hkj : ¬ (k = k') := fun h => hk h.symm
        simp [insertRow, lookupRow, hk, hkj]
      · simp [insertRow, lookupRow, hk, hj1, ih]

theorem length_insertRow (k : κ) (v : ρ) (l : List (κ × ρ)) :
    (insertRow k v l).length =
      if (lookupRow k l).isSome then l.length else l.length + 1 := by
  induction l with
  | nil => simp [insertRow, lookupRow]
  | cons hd t ih =>
    obtain ⟨k', v'⟩ := hd
    by_cases hk : k' = k
    · simp [insertRow, lookupRow, hk]
    · simp only [insertRow, if_neg hk, lookupRow, List.length_cons, ih]
      cases h : (lookupRow k t).isSome <;> simp [h]

theorem lookupRow_applyOps (ops : List (κ × ρ)) (l : List (κ × ρ)) (k : κ) :
    lookupRow k (applyOps ops l) =
      match lastVal k ops with
      | some v => some v
      | none => lookupRow k l := by
  induction ops generalizing l with
  | nil => simp [applyOps, lastVal]
  | cons hd t ih =>
    obtain ⟨k0, v0⟩ := hd
    show lookupRow k (applyOps t (insertRow k0 v0 l)) = _
    rw [ih]
    cases h : lastVal k t with
    | some v => simp [lastVal, h]
    | none =>
      simp only [lastVal, h, lookupRow_insertRow]
      by_cases h0 : k0 = k <;> simp [h0]

theorem lastVal_isSome_of_mem {ops : List (κ × ρ)} {k : κ} {v : ρ}
    (h : (k, v) ∈ ops) : (lastVal k ops).isSome := by
  induction ops with
  | nil => cases h
  | cons hd t ih =>
    obtain ⟨k0, v0⟩ := hd
    rcases List.mem_cons.mp h with h1 | h2
    · cases h1
      cases hlv : lastVal k t with
      | some v' => simp [lastVal, hlv]
      | none => simp [lastVal, hlv]
    · have := ih h2
      cases hlv : lastVal k t with
      | some v' => simp [lastVal, hlv]
      | none => simp [hlv] at this

theorem length_applyOps_stable (ops : List (κ × ρ)) (l : List (κ × ρ))
    (h : ∀ p ∈ ops, (lookupRow p.1 l).isSome) :
    (applyOps ops l).length = l.length := by
  induction ops generalizing l with
  | nil => rfl
  | cons hd t ih =>
    obtain ⟨k0, v0⟩ := hd
    show (applyOps t (insertRow k0 v0 l)).length = l.length
    have hk0 : (lookupRow k0 l).isSome := h (k0, v0) (List.mem_cons_self _ _)
    have hlen : (insertRow k0 v0 l).length = l.length := by
      rw [length_insertRow, if_pos hk0]
    rw [ih (insertRow k0 v0 l) ?_, hlen]
    intro p hp
    rw [lookupRow_insertRow]
    by_cases hpk : k0 = p.1
    · simp [hpk]
    · simp only [if_neg hpk]
      exact h p (List.mem_cons_of_mem _ hp)

theorem applyOps_idem_length (ops : List (κ × ρ)) (l : List (κ × ρ)) :
    (applyOps ops (applyOps ops l)).length = (applyOps ops l).length := by
  apply length_applyOps_stable
  intro p hp
  rw [lookupRow_applyOps]
  have := lastVal_isSome_of_mem (k := p.1) (v := p.2) (by simpa using hp)
  cases h : lastVal p.1 ops with
  | some v => simp
  | none => simp [h] at this

theorem applyOps_idem_lookup (ops : List (κ × ρ)) (l : List (κ × ρ)) (k : κ) :
    lookupRow k (applyOps ops (applyOps ops l)) = lookupRow k (applyOps ops l) := by
  rw [lookupRow_applyOps, lookupRow_applyOps]
  cases h : lastVal k ops <;> simp [h]

/-! ## JavaScript value coercions

`db.ts` passes values through JavaScript truthiness coercions
(`x || null`) before binding them to SQL parameters: `undefined`, `null`,
`""` and `0` all become `NULL`.  A sample value is `number | string` and
may also be absent (`undefined`). -/

/-- A ChurchTools fact value as it reaches `insertEventFact`:
a JS number (modelled as a rational), a JS string, or `undefined`. -/
inductive JSValue : Type
  | num (q : ℚ)
  | str (s : String)
  | undef
deriving DecidableEq

/-- Does `typeof v === "number"` hold (the `isNumeric` test in
`database.insertEventFact`)? -/
def JSValue.isNum : JSValue → Bool
  | .num _ => true
  | _ => false

/-- JS `String(v)` for the non-number values that reach it in
`insertEventFact` (`String(undefined) = "undefined"`).  The `num` branch is
unreachable there: the source applies `String` only under `!isNumeric`. -/
def JSValue.render : JSValue → String
  | .num _ => ""
  | .str s => s
  | .undef => "undefined"

/-- `x || null` for an optional string: `undefined` and `""` are falsy. -/
def orNullStr : Option String → Option String
  | none => none
  | some s => if s = "" then none else some s

/-- `x || null` for an optional integer: `undefined` and `0` are falsy. -/
def orNullInt : Option ℤ → Option ℤ
  | none => none
  | some n => if n = 0 then none else some n

/-! ## Store rows and the three tables of `db.ts`

Row payloads carry exactly the columns the `INSERT OR REPLACE` statements
write; `created_at` models the `DATETIME DEFAULT CURRENT_TIMESTAMP` column
(re-filled on every replace) as an abstract clock value.  The
`event_facts` surrogate rowid is read by no query in the repository and is
not modelled. -/

structure FactRow where
  name : String
  name_translated : String
  type : String
  unit : Option String
  sort_key : ℤ
  created_at : ℕ
deriving DecidableEq

structure EventRow where
  name : String
  start_date : String
  end_date : Option String
  calendar_id : Option ℤ
  created_at : ℕ
deriving DecidableEq

structure EventFactRow where
  event_name : Option String
  value : Option ℚ
  value_text : Option String
  modified_date : Option String
  created_at : ℕ
deriving DecidableEq

/-- The SQLite database of `db.ts`: `facts`, `events` and `event_facts`,
keyed by `id`, `id` and `UNIQUE(event_id, fact_id)` respectively. -/
structure Store where
  facts : List (ℤ × FactRow)
  events : List (ℤ × EventRow)
  event_facts : List ((ℤ × ℤ) × EventFactRow)

def emptyStore : Store := ⟨[], [], []⟩

/-- Input record for `database.insertFact`. -/
structure FactIn where
  id : ℤ
  name : String
  name_translated : String
  type : String
  unit : Option String
  sort_key : ℤ
deriving DecidableEq

/-- Input record for `database.insertEvent`. -/
structure EventIn where
  id : ℤ
  name : String
  start_date : String
  end_date : Option String
  calendar_id : Option ℤ
deriving DecidableEq

/-- Input record for `database.insertEventFact`. -/
structure EventFactIn where
  event_id : ℤ
  fact_id : ℤ
  value : JSValue
  modified_date : Option String
  event_name : Option String
deriving DecidableEq

def mkFactRow (now : ℕ) (f : FactIn) : FactRow :=
  { name := f.name
    name_translated := f.name_translated
    type := f.type
    unit := orNullStr f.unit
    sort_key := f.sort_key
    created_at := now }

def mkEventRow (now : ℕ) (e : EventIn) : EventRow :=
  { name := e.name
    start_date := e.start_date
    end_date := orNullStr e.end_date
    calendar_id := orNullInt e.calendar_id
    created_at := now }

/-- The row written by `database.insertEventFact`: the numeric column is
filled exactly when the incoming value is a JS number (`isNumeric`), and
the text column otherwise holds `String(value)`. -/
def mkEventFactRow (now : ℕ) (x : EventFactIn) : EventFactRow :=
  let isNumeric := x.value.isNum
  { event_name := orNullStr x.event_name
    value := if isNumeric then (match x.value with | .num q => some q | _ => none) else none
    value_text := if isNumeric then none else some x.value.render
    modified_date := orNullStr x.modified_date
    created_at := now }

def insertFact (now : ℕ) (f : FactIn) (s : Store) : Store :=
  { s with facts := insertRow f.id (mkFactRow now f) s.facts }

def insertEvent (now : ℕ) (e : EventIn) (s : Store) : Store :=
  { s with events := insertRow e.id (mkEventRow now e) s.events }

def insertEventFact (now : ℕ) (x : EventFactIn) (s : Store) : Store :=
  { s with event_facts :=
      insertRow (x.event_id, x.fact_id) (mkEventFactRow now x) s.event_facts }

/-! ## Ingestion payloads

An ingestion payload is an arbitrary interleaving of metric-definition,
occurrence and sample records, applied in order through the three insert
operations. -/

inductive IngestRecord : Type
  | fact (f : FactIn)
  | event (e : EventIn)
  | sample (x : EventFactIn)

def applyRecord (now : ℕ) (s : Store) : IngestRecord → Store
  | .fact f => insertFact now f s
  | .event e => insertEvent now e s
  | .sample x => insertEventFact now x s

def applyPayload (now : ℕ) (p : List IngestRecord) (s : Store) : Store :=
  p.foldl (applyRecord now) s

/-- The keyed writes a payload performs on the `facts` table. -/
def factOps (now : ℕ) (p : List IngestRecord) : List (ℤ × FactRow) :=
  p.filterMap fun r =>
    match r with
    | .fact f => some (f.id, mkFactRow now f)
    | _ => none

/-- The keyed writes a payload performs on the `events` table. -/
def eventOps (now : ℕ) (p : List IngestRecord) : List (ℤ × EventRow) :=
  p.filterMap fun r =>
    match r with
    | .event e => some (e.id, mkEventRow now e)
    | _ => none

/-- The keyed writes a payload performs on the `event_facts` table. -/
def sampleOps (now : ℕ) (p : List IngestRecord) : List ((ℤ × ℤ) × EventFactRow) :=
  p.filterMap fun r =>
    match r with
    | .sample x => some ((x.event_id, x.fact_id), mkEventFactRow now x)
    | _ => none

theorem applyPayload_facts (now : ℕ) (p : List IngestRecord) (s : Store) :
    (applyPayload now p s).facts = applyOps (factOps now p) s.facts := by
  induction p generalizing s with
  | nil => rfl
  | cons r t ih =>
    cases r <;>
      simp [applyPayload, factOps, applyOps, List.foldl_cons, applyRecord,
        insertFact, insertEvent, insertEventFact] at ih ⊢ <;>
      exact ih _

theorem applyPayload_events (now : ℕ) (p : List IngestRecord) (s : Store) :
    (applyPayload now p s).events = applyOps (eventOps now p) s.events := by
  induction p generalizing s with
  | nil => rfl
  | cons r t ih =>
    cases r <;>
      simp [applyPayload, eventOps, applyOps, List.foldl_cons, applyRecord,
        insertFact, insertEvent, insertEventFact] at ih ⊢ <;>
      exact ih _

theorem applyPayload_event_facts (now : ℕ) (p : List IngestRecord) (s : Store) :
    (applyPayload now p s).event_facts = applyOps (sampleOps now p) s.event_facts := by
  induction p generalizing s with
  | nil => rfl
  | cons r t ih =>
    cases r <;>
      simp [applyPayload, sampleOps, applyOps, List.foldl_cons, applyRecord,
        insertFact, insertEvent, insertEventFact] at ih ⊢ <;>
      exact ih _

/-! ## Timestamps

Date strings (`events.start_date`, query bounds) are compared in SQL via
`datetime(...)`, which normalises an ISO-8601-ish string to
`YYYY-MM-DD HH:MM:SS` (missing time components default to zero,
fractional seconds are dropped) and yields `NULL` on anything it cannot
parse; comparing against `NULL` fails the `WHERE` clause.  `DateTime` is
that normalised value; `parseSqlDateTime` is the normalisation. -/

structure DateTime where
  y : ℤ
  mo : ℕ
  dy : ℕ
  hh : ℕ
  mi : ℕ
  ss : ℕ
deriving DecidableEq

/-- Chronological (lexicographic) order on normalised datetimes, matching
string comparison of the `datetime()` renderings. -/
def dtLE (a b : DateTime) : Bool :=
  if a.y < b.y then true else if b.y < a.y then false else
  if a.mo < b.mo then true else if b.mo < a.mo then false else
  if a.dy < b.dy then true else if b.dy < a.dy then false else
  if a.hh < b.hh then true else if b.hh < a.hh then false else
  if a.mi < b.mi then true else if b.mi < a.mi then false else
  a.ss ≤ b.ss

def digitVal (c : Char) : Option ℕ :=
  if c.isDigit then some (c.toNat - 48) else none

def parse2 (a b : Char) : Option ℕ := do
  let x ← digitVal a
  let y ← digitVal b
  pure (10 * x + y)

/-- Trailing part allowed after the seconds: nothing, a `Z` suffix, or
fractional seconds (dropped by `datetime()`) optionally followed by `Z`. -/
def zuluOk : List Char → Bool
  | [] => true
  | ['Z'] => true
  | _ => false

def fracOk : List Char → Bool
  | [] => true
  | ['Z'] => true
  | '.' :: r =>
    let ds := r.takeWhile Char.isDigit
    !ds.isEmpty && zuluOk (r.drop ds.length)
  | _ => false

def parseTimePart : List Char → Option (ℕ × ℕ × ℕ)
  | [] => some (0, 0, 0)
  | sep :: h1 :: h2 :: ':' :: n1 :: n2 :: rest =>
    if sep = 'T' ∨ sep = ' ' then do
      let hh ← parse2 h1 h2
      let mi ← parse2 n1 n2
      if hh ≤ 23 ∧ mi ≤ 59 then
        match rest with
        | [] => some (hh, mi, 0)
        | ['Z'] => some (hh, mi, 0)
        | ':' :: s1 :: s2 :: tl => do
          let ss ← parse2 s1 s2
          if ss ≤ 59 ∧ fracOk tl then some (hh, mi, ss) else none
        | _ => none
      else none
    else none
  | _ => none

def parseDateChars : List Char → Option DateTime
  | c1 :: c2 :: c3 :: c4 :: '-' :: m1 :: m2 :: '-' :: d1 :: d2 :: rest => do
    let a ← digitVal c1
    let b ← digitVal c2
    let c ← digitVal c3
    let d ← digitVal c4
    let mo ← parse2 m1 m2
    let dy ← parse2 d1 d2
    if 1 ≤ mo ∧ mo ≤ 12 ∧ 1 ≤ dy ∧ dy ≤ 31 then
      let (hh, mi, ss) ← parseTimePart rest
      pure ⟨(1000 * a + 100 * b + 10 * c + d : ℕ), mo, dy, hh, mi, ss⟩
    else none
  | _ => none

def parseSqlDateTime (s : String) : Option DateTime :=
  parseDateChars s.toList

/-! ## Read queries of `db.ts` -/

/-- Is the SQL filter `ef.event_name IN (names)` satisfied?  The clause is
only added when a non-empty name list is supplied
(`eventNames && eventNames.length > 0`); a `NULL` `event_name` never
satisfies `IN`. -/
def nameMatches (eventNames : Option (List String)) (en : Option String) : Bool :=
  match eventNames with
  | some (n :: ns) =>
    match en with
    | some e => (n :: ns).contains e
    | none => false
  | _ => true

/-- The rows selected by the shared `WHERE` clause of
`getEventFactsByTimeRange(Filtered)`, `getMonthlyAggregateByFact`,
`getYearlySum` and `getYearlyMean`: `event_facts` joined to `events`,
restricted to the fact, to non-`NULL` numeric values, to
`datetime(start_date)` within the bounds, and to the optional name set.
Each kept row contributes its value and its normalised start datetime. -/
def aggRows (s : Store) (factId : ℤ) (lo hi : DateTime)
    (eventNames : Option (List String)) : List (ℚ × DateTime) :=
  s.event_facts.filterMap fun kv =>
    if kv.1.2 = factId then
      match kv.2.value with
      | none => none
      | some v =>
        match lookupRow kv.1.1 s.events with
        | none => none
        | some ev =>
          match parseSqlDateTime ev.start_date with
          | none => none
          | some dt =>
            if dtLE lo dt ∧ dtLE dt hi ∧ nameMatches eventNames kv.2.event_name
            then some (v, dt) else none
    else none

def sumVals (rows : List (ℚ × DateTime)) : ℚ :=
  rows.foldl (fun a r => a + r.1) 0

/-- `getYearlySum`: bounds are the strings `YYYY-01-01` / `YYYY-12-31`,
which `datetime()` reads as midnight of those days — so the upper bound is
the very start of December 31.  `SUM(..) || 0` turns the `NULL` of an
empty selection into `0`. -/
def getYearlySum (s : Store) (factId : ℤ) (year : ℤ)
    (eventNames : Option (List String)) : ℚ × ℕ :=
  let rows := aggRows s factId ⟨year, 1, 1, 0, 0, 0⟩ ⟨year, 12, 31, 0, 0, 0⟩ eventNames
  (sumVals rows, rows.length)

/-- `getYearlyMean`: identical selection, `AVG` instead of `SUM`. -/
def getYearlyMean (s : Store) (factId : ℤ) (year : ℤ)
    (eventNames : Option (List String)) : ℚ × ℕ :=
  let rows := aggRows s factId ⟨year, 1, 1, 0, 0, 0⟩ ⟨year, 12, 31, 0, 0, 0⟩ eventNames
  (if rows.length = 0 then 0 else sumVals rows / rows.length, rows.length)

def insertBy {α : Type} (le : α → α → Bool) (x : α) : List α → List α
  | [] => [x]
  | y :: t => if le x y then x :: y :: t else y :: insertBy le x t

def sortBy {α : Type} (le : α → α → Bool) (l : List α) : List α :=
  l.foldr (insertBy le) []

def monthKeyLE (a b : ℤ × ℕ) : Bool :=
  if a.1 < b.1 then true else if b.1 < a.1 then false else a.2 ≤ b.2

/-- `getMonthlyAggregateByFact`: the matching rows grouped by
`strftime('%Y-%m', start_date)` (the year/month of the normalised start),
each group summed and counted, ordered by month. -/
def getMonthlyAggregateByFact (s : Store) (factId : ℤ) (lo hi : DateTime)
    (eventNames : Option (List String)) : List ((ℤ × ℕ) × ℚ × ℕ) :=
  let rows := aggRows s factId lo hi eventNames
  let keys := sortBy monthKeyLE ((rows.map fun r => (r.2.y, r.2.mo)).dedup)
  keys.map fun k =>
    let grp := rows.filter fun r => (r.2.y, r.2.mo) = k
    (k, sumVals grp, grp.length)

/-- `getEventFactsByTimeRange(Filtered)`: the raw matching rows; the extra
join on `facts` drops everything when the fact row is absent. -/
def getEventFactsByTimeRange (s : Store) (factId : ℤ) (lo hi : DateTime)
    (eventNames : Option (List String)) : List (ℚ × DateTime) :=
  if (lookupRow factId s.facts).isSome then aggRows s factId lo hi eventNames
  else []

/-- `getNumericFacts`: fact definitions with `type = 'number'`, ordered by
`sort_key`. -/
def getNumericFacts (s : Store) : List (ℤ × FactRow) :=
  sortBy (fun a b => decide (a.2.sort_key ≤ b.2.sort_key))
    (s.facts.filter fun kv => kv.2.type = "number")

/-- `getLastSyncTime`: `MAX(created_at)` over `events`, `NULL` (here
`none`) when the table is empty.  This is the derived sync watermark. -/
def getLastSyncTime (s : Store) : Option ℕ :=
  match s.events.map (fun kv => kv.2.created_at) with
  | [] => none
  | x :: xs => some (xs.foldl max x)

/-! ## Grafana query façade (`src/grafana.ts`)

The handler converts `range.from` / `range.to` through
`new Date(..).toISOString()` and SQLite `datetime(..)`; the net effect is
a normalised `DateTime`, so the range is modelled as a pair of them.
Datapoint timestamps (`new Date(...).getTime()`, epoch milliseconds) are a
strictly monotone encoding of the wall-clock instant; they are modelled by
the `DateTime` itself. -/

inductive Agg : Type
  | raw
  | monthly
  | yearly_sum
  | yearly_mean
deriving DecidableEq

def aggOfString (x : String) : Option Agg :=
  if x = "raw" then some .raw
  else if x = "monthly" then some .monthly
  else if x = "yearly_sum" then some .yearly_sum
  else if x = "yearly_mean" then some .yearly_mean
  else none

/-- JS `parseInt` on a non-empty all-digit string. -/
def digitsToNat (ds : List Char) : ℕ :=
  ds.foldl (fun a c => 10 * a + (c.toNat - 48)) 0

/-- The composite-key pattern `/^fact_(\d+)_(raw|monthly|yearly_sum|yearly_mean)$/`
followed by `parseInt` on the digit group.  Greedy digit matching is
equivalent to the regex: no alternative of the second group starts with a
digit, so backtracking can never help. -/
def parseTarget (t : String) : Option (ℕ × Agg) :=
  match t.toList with
  | 'f' :: 'a' :: 'c' :: 't' :: '_' :: rest =>
    let ds := rest.takeWhile Char.isDigit
    let after := rest.drop ds.length
    if ds.isEmpty then none
    else
      match after with
      | '_' :: aggCs =>
        match aggOfString (String.mk aggCs) with
        | some a => some (digitsToNat ds, a)
        | none => none
      | _ => none
  | _ => none

/-- One entry of the request's `targets` array: the composite key plus the
optional `payload.event_names` filter. -/
structure QueryTarget where
  target : String
  event_names : Option (List String)

structure GrafanaDataPoint where
  target : String
  datapoints : List (ℚ × DateTime)
  unit : Option String
deriving DecidableEq

/-- The year enumeration `for (year = startYear; year <= endYear; year++)`. -/
def yearsFromTo (a b : ℤ) : List ℤ :=
  if a ≤ b then (List.range (b - a + 1).toNat).map (fun i => a + i) else []

/-- The `yearly_sum` branch: one datapoint per year whose `count` is
positive, timestamped at `new Date(year, 0, 1)`. -/
def yearlySumSeries (s : Store) (factId : ℤ) (startYear endYear : ℤ)
    (eventNames : Option (List String)) : List (ℚ × DateTime) :=
  (yearsFromTo startYear endYear).foldl
    (fun acc year =>
      let yd := getYearlySum s factId year eventNames
      if 0 < yd.2 then acc ++ [(yd.1, ⟨year, 1, 1, 0, 0, 0⟩)] else acc) []

/-- The `yearly_mean` branch, identical iteration with `getYearlyMean`. -/
def yearlyMeanSeries (s : Store) (factId : ℤ) (startYear endYear : ℤ)
    (eventNames : Option (List String)) : List (ℚ × DateTime) :=
  (yearsFromTo startYear endYear).foldl
    (fun acc year =>
      let yd := getYearlyMean s factId year eventNames
      if 0 < yd.2 then acc ++ [(yd.1, ⟨year, 1, 1, 0, 0, 0⟩)] else acc) []

/-- The `monthly` branch: month groups mapped to the first day of the
month (`new Date(year, month - 1, 1)`). -/
def monthlySeries (s : Store) (factId : ℤ) (lo hi : DateTime)
    (eventNames : Option (List String)) : List (ℚ × DateTime) :=
  (getMonthlyAggregateByFact s factId lo hi eventNames).map fun e =>
    (e.2.1, ⟨e.1.1, e.1.2, 1, 0, 0, 0⟩)

/-- The `raw` branch: matching rows as (value, start), re-sorted by
timestamp (`.sort((a, b) => a[1] - b[1])`). -/
def rawSeries (s : Store) (factId : ℤ) (lo hi : DateTime)
    (eventNames : Option (List String)) : List (ℚ × DateTime) :=
  sortBy (fun a b => dtLE a.2 b.2) (getEventFactsByTimeRange s factId lo hi eventNames)

def aggDatapoints (s : Store) (lo hi : DateTime) (factId : ℤ) (agg : Agg)
    (eventNames : Option (List String)) : List (ℚ × DateTime) :=
  match agg with
  | .raw => rawSeries s factId lo hi eventNames
  | .monthly => monthlySeries s factId lo hi eventNames
  | .yearly_sum => yearlySumSeries s factId lo.y hi.y eventNames
  | .yearly_mean => yearlyMeanSeries s factId lo.y hi.y eventNames

def joinComma : List String → String
  | [] => ""
  | [x] => x
  | x :: t => x ++ ", " ++ joinComma t

def filterSuffix (eventNames : Option (List String)) : String :=
  match eventNames with
  | some (n :: ns) => " [" ++ joinComma (n :: ns) ++ "]"
  | _ => ""

def unitSuffix : Option String → String
  | some u => " (" ++ u ++ ")"
  | none => ""

def aggLabel : Agg → String
  | .raw => ""
  | .monthly => " - Monthly Sum"
  | .yearly_sum => " - Yearly Sum"
  | .yearly_mean => " - Yearly Mean"

/-- The composed series label: the raw branch uses the joined fact's
`name`, the aggregate branches use `name_translated` from
`getNumericFacts`, falling back to `Fact <id>` when no definition is
found. -/
def targetLabel (s : Store) (factId : ℤ) (agg : Agg)
    (eventNames : Option (List String)) : String :=
  match agg with
  | .raw =>
    match lookupRow factId s.facts with
    | some f => f.name ++ unitSuffix f.unit ++ filterSuffix eventNames
    | none => "Fact " ++ toString factId
  | _ =>
    match (getNumericFacts s).find? (fun kv => kv.1 = factId) with
    | some kv =>
      kv.2.name_translated ++ aggLabel agg ++ unitSuffix kv.2.unit ++ filterSuffix eventNames
    | none => "Fact " ++ toString factId

def targetUnit (s : Store) (factId : ℤ) (agg : Agg) : Option String :=
  match agg with
  | .raw => (lookupRow factId s.facts).bind fun f => f.unit
  | _ => ((getNumericFacts s).find? (fun kv => kv.1 = factId)).bind fun kv => kv.2.unit

/-- One iteration of the query loop: a target whose key fails the pattern
is skipped (`continue`); otherwise its datapoints are computed and a
result entry is appended only when at least one datapoint was produced. -/
def queryStep (s : Store) (lo hi : DateTime)
    (results : List GrafanaDataPoint) (t : QueryTarget) : List GrafanaDataPoint :=
  match parseTarget t.target with
  | none => results
  | some (fid, agg) =>
    let dps := aggDatapoints s lo hi (fid : ℤ) agg t.event_names
    if dps.isEmpty then results
    else results ++
      [{ target := targetLabel s (fid : ℤ) agg t.event_names
         datapoints := dps
         unit := targetUnit s (fid : ℤ) agg }]

/-- The `/query` handler body: fold the step over the request's targets.
It is a total function — no target, malformed or not, makes it fail. -/
def queryHandler (s : Store) (lo hi : DateTime) (targets : List QueryTarget) :
    List GrafanaDataPoint :=
  targets.foldl (queryStep s lo hi) []

/-! ## ChurchTools ingestion client (`src/churchtools-client.ts`)

The upstream system is an oracle `Upstream`: what each REST call would
return (or that it would fail).  Each client method first checks the
client's authentication flag and throws `Not authenticated` otherwise.
`getEventFacts` catches its fetch error and returns `[]` ("Return empty
array instead of throwing to continue with other events"); the
master-data and events fetches rethrow. -/

structure CTFact where
  id : ℤ
  name : String
  nameTranslated : String
  type : String
  unit : Option String
  sortKey : ℤ
deriving DecidableEq

structure CTEvent where
  id : ℤ
  name : String
  startDate : String
  endDate : Option String
  calendarId : Option ℤ
deriving DecidableEq

structure CTEventFact where
  eventId : ℤ
  factId : ℤ
  value : JSValue
  modifiedDate : Option String
deriving DecidableEq

structure CTMasterData where
  facts : Option (List CTFact)
deriving DecidableEq

structure Upstream where
  auth : Bool
  masterdata : Except String CTMasterData
  eventsFor : String → String → Except String (List CTEvent)
  factsFor : ℤ → Except String (List CTEventFact)

def getMasterData (w : Upstream) : Except String CTMasterData :=
  if w.auth then w.masterdata else .error "Not authenticated"

def getEvents (w : Upstream) (fromStr toStr : String) : Except String (List CTEvent) :=
  if w.auth then w.eventsFor fromStr toStr else .error "Not authenticated"

def recoverEmpty : Except String (List CTEventFact) → List CTEventFact
  | .ok l => l
  | .error _ => []

/-- `getEventFacts`: fatal when unauthenticated, otherwise a per-event
fetch failure degrades to an empty list. -/
def getEventFacts (w : Upstream) (eventId : ℤ) : Except String (List CTEventFact) :=
  if w.auth then .ok (recoverEmpty (w.factsFor eventId)) else .error "Not authenticated"

/-- `event.id ? this.getEventFacts(event.id) : Promise.resolve([])` —
a falsy (zero) id skips the fetch. -/
def perEventFacts (w : Upstream) (e : CTEvent) : Except String (List CTEventFact) :=
  if e.id ≠ 0 then getEventFacts w e.id else .ok []

/-- The batched fan-out of `getAllFactsForDateRange` / `getAllFactsForYear`:
events in slices of `batchSize = 10`, each slice fetched via `Promise.all`
and flattened onto the accumulator in order.  The recursion is driven by
a fuel argument (instantiated with the list length, which bounds the
number of slices) so that the definition is structural. -/
def fetchFactsBatchedFuel (w : Upstream) : ℕ → List CTEvent → Except String (List CTEventFact)
  | _, [] => .ok []
  | 0, _ :: _ => .ok []
  | fuel + 1, e :: rest => do
    let arrs ← ((e :: rest).take 10).mapM (perEventFacts w)
    let tl ← fetchFactsBatchedFuel w fuel ((e :: rest).drop 10)
    pure (arrs.flatten ++ tl)

def fetchFactsBatched (w : Upstream) (evs : List CTEvent) : Except String (List CTEventFact) :=
  fetchFactsBatchedFuel w evs.length evs

def getAllFactsForDateRange (w : Upstream) (fromStr toStr : String) :
    Except String (List CTEvent × List CTEventFact) := do
  let evs ← getEvents w fromStr toStr
  let fl ← fetchFactsBatched w evs
  pure (evs, fl)

/-- The serial (rate-limited) loop of `getAllFactsForYearWithDelay`:
one event at a time, falsy ids skipped, the inter-request delay being
irrelevant to the data produced. -/
def fetchFactsSerial (w : Upstream) : List CTEvent → Except String (List CTEventFact)
  | [] => .ok []
  | e :: rest =>
    if e.id ≠ 0 then do
      let fs ← getEventFacts w e.id
      let tl ← fetchFactsSerial w rest
      pure (fs ++ tl)
    else fetchFactsSerial w rest

def getAllFactsForYearWithDelay (w : Upstream) (year : ℤ) :
    Except String (List CTEvent × List CTEventFact) := do
  let evs ← getEvents w (toString year ++ "-01-01") (toString year ++ "-12-31")
  let fl ← fetchFactsSerial w evs
  pure (evs, fl)

/-! ## Sync orchestrator (`src/sync.ts`)

`DataSyncService` holds the single-flight flag `isSyncing`.  Both entry
points guard on it before the `try`, so an early exit leaves the flag
untouched; the `finally` of the guarded body always clears it.  The model
is sequential: each invocation runs to completion, and `failAt` injects a
store-write failure (a throwing `better-sqlite3` statement) before the
`failAt`-th write of the pass, `none` meaning all writes succeed. -/

structure SyncService where
  isSyncing : Bool
deriving DecidableEq

inductive SyncOutcome : Type
  | completed
  | skipped
deriving DecidableEq

/-- Wall clock at the start of a pass: `getFullYear()`, zero-based
`getMonth()`, and the `CURRENT_TIMESTAMP` value stamped into
`created_at` columns. -/
structure Now where
  y : ℤ
  m0 : ℤ
  ts : ℕ

/-- `new Date(y, m, 1)` month normalisation: the constructor carries
month overflow/underflow into the year (floor division, non-negative
remainder). -/
def jsMonth (y m : ℤ) : ℤ × ℤ := (y + m / 12, m % 12)

def pad2 (n : ℤ) : String := if n < 10 then "0" ++ toString n else toString n

/-- `toISOString().split("T")[0]` of local midnight on the first of the
month, modelled under a UTC clock (4-digit years). -/
def isoFirstOfMonth (ym : ℤ × ℤ) : String :=
  toString ym.1 ++ "-" ++ pad2 (ym.2 + 1) ++ "-01"

/-- The date range `syncData` fetches: first of the previous month
(`new Date(y, m0 - 1, 1)`) to first of the next month
(`new Date(y, m0 + 1, 1)`). -/
def syncWindow (y m0 : ℤ) : String × String :=
  (isoFirstOfMonth (jsMonth y (m0 - 1)), isoFirstOfMonth (jsMonth y (m0 + 1)))

/-- Metric-definition upserts of a pass (`database.upsertFact`, the
`INSERT OR REPLACE` of `db.ts`), skipped when `masterData.facts` is
absent. -/
def factWrites (md : CTMasterData) : List IngestRecord :=
  match md.facts with
  | some fs => fs.map fun f => .fact ⟨f.id, f.name, f.nameTranslated, f.type, f.unit, f.sortKey⟩
  | none => []

/-- Occurrence upserts of a pass; `if (event.id)` skips falsy ids. -/
def eventWrites (evs : List CTEvent) : List IngestRecord :=
  evs.filterMap fun e =>
    if e.id ≠ 0 then some (.event ⟨e.id, e.name, e.startDate, e.endDate, e.calendarId⟩)
    else none

/-- `eventsMap.get(fact.eventId)?.name` for the JS `Map` built from the
event list (later duplicates win). -/
def eventNameFor (evs : List CTEvent) (eid : ℤ) : Option String :=
  (evs.reverse.find? fun e => e.id = eid).map fun e => e.name

/-- Sample upserts of a pass. -/
def efWrites (evs : List CTEvent) (efs : List CTEventFact) : List IngestRecord :=
  efs.map fun f => .sample ⟨f.eventId, f.factId, f.value, f.modifiedDate, eventNameFor evs f.eventId⟩

/-- Truncate the pass's writes at an injected failure point: the writes
before it persist (SQLite auto-commits each statement; there is no
enclosing transaction), and the pass aborts. -/
def cutWrites (failAt : Option ℕ) (ws : List IngestRecord) : List IngestRecord × Bool :=
  match failAt with
  | none => (ws, false)
  | some k => if k < ws.length then (ws.take k, true) else (ws, false)

def storeWriteError : String := "store write failed"

/-- The guarded body of `DataSyncService.syncData` (everything inside the
`try`/`finally`, which always ends with `isSyncing = false`): refresh
definitions, fetch the rolling window, insert events then event facts;
rethrow any error. -/
def syncDataRun (w : Upstream) (now : Now) (failAt : Option ℕ) (s : Store) :
    Except String SyncOutcome × SyncService × Store :=
  match getMasterData w with
  | .error e => (.error e, ⟨false⟩, s)
  | .ok md =>
    let fw := factWrites md
    match cutWrites failAt fw with
    | (done, true) => (.error storeWriteError, ⟨false⟩, applyPayload now.ts done s)
    | (_, false) =>
      let s1 := applyPayload now.ts fw s
      let range := syncWindow now.y now.m0
      match getAllFactsForDateRange w range.1 range.2 with
      | .error e => (.error e, ⟨false⟩, s1)
      | .ok (evs, efs) =>
        let ew := eventWrites evs ++ efWrites evs efs
        match cutWrites (failAt.map fun k => k - fw.length) ew with
        | (done2, true) => (.error storeWriteError, ⟨false⟩, applyPayload now.ts done2 s1)
        | (_, false) => (.ok .completed, ⟨false⟩, applyPayload now.ts ew s1)

/-- `DataSyncService.syncData`: when a sync is already running it logs
and returns normally (`.ok .skipped`) without touching flag or store;
otherwise it runs the guarded body. -/
def syncData (w : Upstream) (now : Now) (failAt : Option ℕ)
    (st : SyncService) (s : Store) : Except String SyncOutcome × SyncService × Store :=
  if st.isSyncing then (.ok .skipped, st, s)
  else syncDataRun w now failAt s

/-- The guarded body of `DataSyncService.syncYear`: like `syncData` over
one explicit year via the serial fetch path, returning the processed
counts. -/
def syncYearRun (w : Upstream) (year : ℤ) (ts : ℕ) (failAt : Option ℕ) (s : Store) :
    Except String (ℕ × ℕ) × SyncService × Store :=
  match getMasterData w with
  | .error e => (.error e, ⟨false⟩, s)
  | .ok md =>
    let fw := factWrites md
    match cutWrites failAt fw with
    | (done, true) => (.error storeWriteError, ⟨false⟩, applyPayload ts done s)
    | (_, false) =>
      let s1 := applyPayload ts fw s
      match getAllFactsForYearWithDelay w year with
      | .error e => (.error e, ⟨false⟩, s1)
      | .ok (evs, efs) =>
        let ew := eventWrites evs ++ efWrites evs efs
        match cutWrites (failAt.map fun k => k - fw.length) ew with
        | (done2, true) => (.error storeWriteError, ⟨false⟩, applyPayload ts done2 s1)
        | (_, false) => (.ok (evs.length, efs.length), ⟨false⟩, applyPayload ts ew s1)

/-- `DataSyncService.syncYear`: throws `Sync already in progress` when
busy (before the `try`, so the flag is untouched); otherwise runs the
guarded body. -/
def syncYear (w : Upstream) (year : ℤ) (ts : ℕ) (failAt : Option ℕ)
    (st : SyncService) (s : Store) : Except String (ℕ × ℕ) × SyncService × Store :=
  if st.isSyncing then (.error "Sync already in progress", st, s)
  else syncYearRun w year ts failAt s

structure HttpReply where
  status : ℕ
  body_status : String
  message : String
deriving DecidableEq

/-- The `POST /sync` route of `index.ts`: any normal return of
`syncData` — including the skipped early return — is reported as
`{status: "success", message: "Sync completed"}`; a thrown error becomes
a 500 with the error text. -/
def syncHttpHandler (w : Upstream) (now : Now) (st : SyncService) (s : Store) :
    HttpReply × SyncService × Store :=
  match syncData w now none st s with
  | (.ok _, st', s') => (⟨200, "success", "Sync completed"⟩, st', s')
  | (.error e, st', s') => (⟨500, "error", e⟩, st', s')

/-! ## Calendar-date range membership

Used to state what the fetched window covers.  The upstream
`fetchOccurrences(range)` contract (spec §4.1) returns occurrences whose
start falls in the inclusive range `[from, to]`; on ISO date strings that
order is the calendar (lexicographic) order on (year, month, day). -/

/-- Lexicographic (calendar) order on (year, zero-based month, day). -/
def dateTripleLE (a b : ℤ × ℤ × ℤ) : Prop :=
  a.1 < b.1 ∨ (a.1 = b.1 ∧ (a.2.1 < b.2.1 ∨ (a.2.1 = b.2.1 ∧ a.2.2 ≤ b.2.2)))

instance (a b : ℤ × ℤ × ℤ) : Decidable (dateTripleLE a b) := by
  unfold dateTripleLE; infer_instance

/-- Does a calendar date (year, zero-based month, day) fall within the
inclusive range `syncData` requests for a clock reading `(y, m0)`? -/
def dateInSyncWindow (y m0 : ℤ) (d : ℤ × ℤ × ℤ) : Prop :=
  dateTripleLE ((jsMonth y (m0 - 1)).1, (jsMonth y (m0 - 1)).2, 1) d
  ∧ dateTripleLE d ((jsMonth y (m0 + 1)).1, (jsMonth y (m0 + 1)).2, 1)

instance (y m0 : ℤ) (d : ℤ × ℤ × ℤ) : Decidable (dateInSyncWindow y m0 d) := by
  unfold dateInSyncWindow; infer_instance

/-! ## Concrete fixtures used by counterexamples and witnesses -/

/-- An upstream with nothing to deliver: authenticated, no fact
definitions, no events. -/
def idleWorld : Upstream :=
  { auth := true
    masterdata := .ok ⟨none⟩
    eventsFor := fun _ _ => .ok []
    factsFor := fun _ => .ok [] }

def busyNow : Now := ⟨2024, 4, 0⟩

/-- A store holding one previously synced occurrence created at time 100. -/
def oldEventStore : Store :=
  ⟨[], [(1, ⟨"Old", "2025-01-01", none, none, 100⟩)], []⟩

def newEvent : CTEvent := ⟨2, "New", "2026-01-15", none, none⟩

def newSample : CTEventFact := ⟨2, 1, .num 5, none⟩

/-- An upstream delivering one new occurrence with one sample. -/
def failWorld : Upstream :=
  { auth := true
    masterdata := .ok ⟨none⟩
    eventsFor := fun _ _ => .ok [newEvent]
    factsFor := fun _ => .ok [newSample] }

def failNow : Now := ⟨2026, 0, 200⟩

/-- A store with a single sample whose occurrence starts at 18:00 on
December 31. -/
def dec31Store : Store :=
  ⟨[], [(10, ⟨"Service", "2024-12-31T18:00:00", none, none, 0⟩)],
    [((10, 1), ⟨some "X", some 5, none, none, 0⟩)]⟩

/-- The sum of the monthly-sum values that fall in one calendar year. -/
def monthlyYearTotal (s : Store) (factId : ℤ) (lo hi : DateTime)
    (eventNames : Option (List String)) (year : ℤ) : ℚ :=
  ((getMonthlyAggregateByFact s factId lo hi eventNames).filter
    fun e => e.1.1 = year).foldl (fun a e => a + e.2.1) 0

/-! ## Helper lemmas -/

theorem syncDataRun_flag (w : Upstream) (now : Now) (f : Option ℕ) (s : Store) :
    (syncDataRun w now f s).2.1 = ⟨false⟩ := by
  unfold syncDataRun
  dsimp only
  repeat' split
  all_goals rfl

theorem syncYearRun_flag (w : Upstream) (year : ℤ) (ts : ℕ) (f : Option ℕ) (s : Store) :
    (syncYearRun w year ts f s).2.1 = ⟨false⟩ := by
  unfold syncYearRun
  dsimp only
  repeat' split
  all_goals rfl

theorem factOps_append (now : ℕ) (a b : List IngestRecord) :
    factOps now (a ++ b) = factOps now a ++ factOps now b := by
  simp [factOps, List.filterMap_append]

theorem factOps_eventWrites (now : ℕ) (evs : List CTEvent) :
    factOps now (eventWrites evs) = [] := by
  induction evs with
  | nil => rfl
  | cons e t ih =>
    by_cases h : e.id = 0 <;>
      simp [eventWrites, factOps, List.filterMap_cons, h] at ih ⊢ <;>
      simpa [eventWrites, factOps] using ih

theorem factOps_efWrites (now : ℕ) (evs : List CTEvent) (efs : List CTEventFact) :
    factOps now (efWrites evs efs) = [] := by
  induction efs with
  | nil => rfl
  | cons x t ih =>
    simp only [efWrites, factOps, List.map_cons, List.filterMap_cons] at ih ⊢
    exact ih

theorem eventOps_factWrites_take (now : ℕ) (md : CTMasterData) (k : ℕ) :
    eventOps now ((factWrites md).take k) = [] := by
  cases md with
  | mk fs =>
    cases fs with
    | none => simp [factWrites, eventOps]
    | some l =>
      induction l generalizing k with
      | nil => simp [factWrites, eventOps]
      | cons f t ih =>
        cases k with
        | zero => simp [eventOps]
        | succ n =>
          simpa [factWrites, eventOps, List.filterMap_cons] using ih n

/-- The guarded `syncData` body with no injected failure: outcome is the
master-data error, else the events-fetch error, else success — a
per-occurrence sample-fetch failure is never surfaced. -/
theorem syncDataRun_outcome (w : Upstream) (now : Now) (s : Store) :
    (syncDataRun w now none s).1
      = match getMasterData w with
        | .error e => .error e
        | .ok _ =>
          match getAllFactsForDateRange w (syncWindow now.y now.m0).1
              (syncWindow now.y now.m0).2 with
          | .error e => .error e
          | .ok _ => .ok .completed := by
  unfold syncDataRun
  cases hmd : getMasterData w with
  | error e => rfl
  | ok md =>
    dsimp only [cutWrites]
    cases hfetch : getAllFactsForDateRange w (syncWindow now.y now.m0).1
        (syncWindow now.y now.m0).2 with
    | error e => rfl
    | ok pr =>
      obtain ⟨evs, efs⟩ := pr
      rfl

/-- Every pass that passes the guard performs the full metric-definition
refresh, and the later occurrence/sample writes never touch the `facts`
table. -/
theorem syncDataRun_facts (w : Upstream) (now : Now) (s : Store) :
    (syncDataRun w now none s).2.2.facts
      = match getMasterData w with
        | .error _ => s.facts
        | .ok md => applyOps (factOps now.ts (factWrites md)) s.facts := by
  unfold syncDataRun
  cases hmd : getMasterData w with
  | error e => rfl
  | ok md =>
    dsimp only [cutWrites]
    cases hfetch : getAllFactsForDateRange w (syncWindow now.y now.m0).1
        (syncWindow now.y now.m0).2 with
    | error e => simp [applyPayload_facts]
    | ok pr =>
      obtain ⟨evs, efs⟩ := pr
      simp [applyPayload_facts, factOps_append, factOps_eventWrites, factOps_efWrites,
        applyOps]

theorem getLastSyncTime_congr {s1 s2 : Store} (h : s1.events = s2.events) :
    getLastSyncTime s1 = getLastSyncTime s2 := by
  unfold getLastSyncTime
  rw [h]

/-- Metric-definition writes never touch the `events` table, so a pass
that fails before its first occurrence write leaves the watermark
unreadable rows untouched. -/
theorem events_unchanged_by_factWrites (now : ℕ) (md : CTMasterData) (k : ℕ) (s : Store) :
    (applyPayload now ((factWrites md).take k) s).events = s.events := by
  rw [applyPayload_events, eventOps_factWrites_take]
  rfl

theorem mapM_ok_of {α β : Type} (fn : α → Except String β) (g : α → β)
    (h : ∀ x, fn x = .ok (g x)) : ∀ l : List α, l.mapM fn = .ok (l.map g) := by
  intro l
  induction l with
  | nil => rfl
  | cons x t ih =>
    rw [List.mapM_cons, h x, ih]
    rfl

/-- With the client authenticated, the batched fan-out always succeeds:
every occurrence contributes its (possibly failure-recovered, hence
empty) sample list, in order. -/
theorem fetchFactsBatchedFuel_ok (w : Upstream) (hw : w.auth = true) :
    ∀ (fuel : ℕ) (evs : List CTEvent), evs.length ≤ fuel →
      fetchFactsBatchedFuel w fuel evs
        = .ok (evs.flatMap fun e =>
            if e.id ≠ 0 then recoverEmpty (w.factsFor e.id) else []) := by
  intro fuel
  induction fuel with
  | zero =>
    intro evs h
    have : evs = [] := List.eq_nil_of_length_eq_zero (Nat.le_zero.mp h)
    subst this
    rfl
  | succ n ih =>
    intro evs h
    cases evs with
    | nil => rfl
    | cons e rest =>
      have hper : ∀ x : CTEvent, perEventFacts w x
          = .ok (if x.id ≠ 0 then recoverEmpty (w.factsFor x.id) else []) := by
        intro x
        by_cases hx : x.id = 0 <;> simp [perEventFacts, getEventFacts, hw, hx]
      rw [fetchFactsBatchedFuel, mapM_ok_of _ _ hper,
        ih ((e :: rest).drop 10)
          (by simp only [List.length_drop, List.length_cons] at h ⊢; omega)]
      show Except.ok _ = Except.ok _
      congr 1
      rw [List.flatMap_def, List.flatMap_def, ← List.flatten_append, ← List.map_append,
        List.take_append_drop]

/-- A fold that conditionally pushes one element per item is the
filter-map of the traversed list. -/
theorem foldl_append_ite {α β : Type} (p : α → Prop) [DecidablePred p] (g : α → β)
    (l : List α) (acc : List β) :
    l.foldl (fun a x => if p x then a ++ [g x] else a) acc
      = acc ++ (l.filter fun x => decide (p x)).map g := by
  induction l generalizing acc with
  | nil => simp
  | cons x t ih =>
    by_cases hp : p x <;> simp [hp, ih, List.filter_cons]

/-- Targets whose key fails the composite pattern contribute nothing to
the query fold. -/
theorem queryFold_skip (s : Store) (lo hi : DateTime) :
    ∀ (targets : List QueryTarget) (acc : List GrafanaDataPoint),
      targets.foldl (queryStep s lo hi) acc
        = (targets.filter fun t => (parseTarget t.target).isSome).foldl (queryStep s lo hi) acc := by
  intro targets
  induction targets with
  | nil => intro acc; rfl
  | cons t ts ih =>
    intro acc
    cases h : parseTarget t.target with
    | none => simp [List.filter_cons, h, queryStep, List.foldl_cons, ih acc]
    | some v => simp [List.filter_cons, h, List.foldl_cons, ih]

/-! ## Claim theorems -/

/-- C1.  Upsert idempotence: applying any ingestion payload (an arbitrary
sequence of metric-definition, occurrence and sample records, each routed
through `insertFact` / `insertEvent` / `insertEventFact`) twice leaves
every table with the same row count and the same stored row under every
key as applying it once; in particular re-applying a sample for the same
`(event_id, fact_id)` pair is a no-op on stored state. -/
theorem upsert_payload_idempotent (now : ℕ) (p : List IngestRecord) (s : Store) :
    ((applyPayload now p (applyPayload now p s)).facts.length
        = (applyPayload now p s).facts.length
      ∧ (applyPayload now p (applyPayload now p s)).events.length
        = (applyPayload now p s).events.length
      ∧ (applyPayload now p (applyPayload now p s)).event_facts.length
        = (applyPayload now p s).event_facts.length)
    ∧ (∀ k, lookupRow k (applyPayload now p (applyPayload now p s)).facts
        = lookupRow k (applyPayload now p s).facts)
    ∧ (∀ k, lookupRow k (applyPayload now p (applyPayload now p s)).events
        = lookupRow k (applyPayload now p s).events)
    ∧ (∀ k, lookupRow k (applyPayload now p (applyPayload now p s)).event_facts
        = lookupRow k (applyPayload now p s).event_facts) := by
  simp only [applyPayload_facts, applyPayload_events, applyPayload_event_facts]
  exact ⟨⟨applyOps_idem_length _ _, applyOps_idem_length _ _, applyOps_idem_length _ _⟩,
    fun k => applyOps_idem_lookup _ _ k, fun k => applyOps_idem_lookup _ _ k,
    fun k => applyOps_idem_lookup _ _ k⟩

/-- C5.  Zero-sample exclusion: the `yearly_sum` and `yearly_mean` series
are exactly the map over those years of the requested range whose
selection count is positive — a year with no matching samples contributes
no datapoint (not a zero-valued one), and every year with at least one
matching sample contributes exactly one datapoint, since the traversed
year range has no duplicates. -/
theorem yearly_series_zero_sample_exclusion (s : Store) (factId : ℤ)
    (eventNames : Option (List String)) (y1 y2 : ℤ) :
    yearlySumSeries s factId y1 y2 eventNames
      = ((yearsFromTo y1 y2).filter fun y =>
            decide (0 < (getYearlySum s factId y eventNames).2)).map
          (fun y => ((getYearlySum s factId y eventNames).1, (⟨y, 1, 1, 0, 0, 0⟩ : DateTime)))
    ∧ yearlyMeanSeries s factId y1 y2 eventNames
      = ((yearsFromTo y1 y2).filter fun y =>
            decide (0 < (getYearlyMean s factId y eventNames).2)).map
          (fun y => ((getYearlyMean s factId y eventNames).1, (⟨y, 1, 1, 0, 0, 0⟩ : DateTime))) := by
  constructor
  · have h := foldl_append_ite (fun y => 0 < (getYearlySum s factId y eventNames).2)
      (fun y => ((getYearlySum s factId y eventNames).1, (⟨y, 1, 1, 0, 0, 0⟩ : DateTime)))
      (yearsFromTo y1 y2) []
    simpa [yearlySumSeries] using h
  · have h := foldl_append_ite (fun y => 0 < (getYearlyMean s factId y eventNames).2)
      (fun y => ((getYearlyMean s factId y eventNames).1, (⟨y, 1, 1, 0, 0, 0⟩ : DateTime)))
      (yearsFromTo y1 y2) []
    simpa [yearlyMeanSeries] using h

/-- C7.  Malformed-target tolerance: the `/query` handler produces the
same response whether or not the targets whose key fails the composite
pattern `fact_<id>_<kind>` are present — every such target is silently
skipped while the well-formed ones are processed, and the handler is a
total function, so no error is raised. -/
theorem malformed_targets_skipped (s : Store) (lo hi : DateTime)
    (targets : List QueryTarget) :
    queryHandler s lo hi targets
      = queryHandler s lo hi (targets.filter fun t => (parseTarget t.target).isSome) :=
  queryFold_skip s lo hi targets []

/-- C9.  Sample value exclusivity: after any `insertEventFact`, the row
stored under `(event_id, fact_id)` holds exactly one of numeric value and
text value: the numeric column is filled iff the incoming value is a JS
number, and otherwise the text column holds the string rendering of the
incoming value (the string itself, or `"undefined"` for an absent
value). -/
theorem sample_value_exclusivity (now : ℕ) (x : EventFactIn) (s : Store) :
    lookupRow (x.event_id, x.fact_id) (insertEventFact now x s).event_facts
      = some (mkEventFactRow now x)
    ∧ (mkEventFactRow now x).value.isSome = x.value.isNum
    ∧ (mkEventFactRow now x).value_text.isSome = !x.value.isNum
    ∧ (mkEventFactRow now x).value_text
        = (match x.value with
           | .num _ => none
           | .str t => some t
           | .undef => some "undefined")
    ∧ ((mkEventFactRow now x).value.isSome && (mkEventFactRow now x).value_text.isSome) = false
    ∧ ((mkEventFactRow now x).value.isSome || (mkEventFactRow now x).value_text.isSome) = true := by
  refine ⟨?_, ?_, ?_, ?_, ?_, ?_⟩
  · simp [insertEventFact, lookupRow_insertRow]
  all_goals cases hx : x.value <;> simp [mkEventFactRow, JSValue.isNum, JSValue.render, hx]

/-- C2 counterexample.  With a sync in progress, an explicit `POST /sync`
trigger is not told a sync is already running: `syncData` returns
normally (skipped) and the route replies `success` / `"Sync completed"` —
the request is silently treated as success, refuting the claim for the
`syncData` on-demand path. -/
theorem syncData_busy_reports_success :
    syncData idleWorld busyNow none ⟨true⟩ emptyStore = (.ok .skipped, ⟨true⟩, emptyStore)
    ∧ syncHttpHandler idleWorld busyNow ⟨true⟩ emptyStore
        = (⟨200, "success", "Sync completed"⟩, ⟨true⟩, emptyStore)
    ∧ ("Sync completed" : String) ≠ "Sync already in progress" :=
  ⟨rfl, rfl, by decide⟩

/-- C2 amended.  Single-flight holds: while the flag is set, neither
entry point begins a second run or touches the store; `syncYear` tells
its caller by throwing `Sync already in progress`, while `syncData`
merely returns (its `POST /sync` caller sees success, not a
sync-already-running report). -/
theorem single_flight_amended (w : Upstream) (now : Now) (f : Option ℕ)
    (year : ℤ) (ts : ℕ) (s : Store) :
    syncData w now f ⟨true⟩ s = (.ok .skipped, ⟨true⟩, s)
    ∧ syncYear w year ts f ⟨true⟩ s = (.error "Sync already in progress", ⟨true⟩, s) :=
  ⟨rfl, rfl⟩

/-- C3 counterexample.  With the clock in May 2024 the fetched range is
`["2024-04-01", "2024-06-01"]`: it ends on the first day of the next
month, not the last (`"2024-06-30"`), so an occurrence starting
June 15, 2024 (next month, zero-based month 5) is outside the window —
the claim's "covers all three full months" fails. -/
theorem window_misses_next_month_tail :
    syncWindow 2024 4 = ("2024-04-01", "2024-06-01")
    ∧ ¬ dateInSyncWindow 2024 4 (2024, 5, 15)
    ∧ (syncWindow 2024 4).2 ≠ "2024-06-30" :=
  ⟨by decide, by decide, by decide⟩

/-- C3 amended.  Every window sync fetches the range from the first day
of the previous month to the first day (not the last day) of the next
month: the previous and current months are covered in full, but of the
next month only its first day; and every pass performs the full
metric-definition refresh, which the occurrence/sample writes never
disturb. -/
theorem syncWindow_amended (y m0 : ℤ) (h0 : 0 ≤ m0) (h12 : m0 < 12) :
    syncWindow y m0
      = (isoFirstOfMonth (jsMonth y (m0 - 1)), isoFirstOfMonth (jsMonth y (m0 + 1)))
    ∧ (∀ d : ℤ, 1 ≤ d → d ≤ 31 →
        dateInSyncWindow y m0 ((jsMonth y (m0 - 1)).1, (jsMonth y (m0 - 1)).2, d))
    ∧ (∀ d : ℤ, 1 ≤ d → d ≤ 31 → dateInSyncWindow y m0 (y, m0, d))
    ∧ dateInSyncWindow y m0 ((jsMonth y (m0 + 1)).1, (jsMonth y (m0 + 1)).2, 1)
    ∧ (∀ d : ℤ, 2 ≤ d →
        ¬ dateInSyncWindow y m0 ((jsMonth y (m0 + 1)).1, (jsMonth y (m0 + 1)).2, d))
    ∧ (∀ (w : Upstream) (now : Now) (s : Store),
        (syncData w now none ⟨false⟩ s).2.2.facts
          = match getMasterData w with
            | .error _ => s.facts
            | .ok md => applyOps (factOps now.ts (factWrites md)) s.facts) := by
  refine ⟨rfl, ?_, ?_, ?_, ?_, ?_⟩
  · intro d h1 h2
    unfold dateInSyncWindow dateTripleLE jsMonth
    dsimp only
    omega
  · intro d h1 h2
    unfold dateInSyncWindow dateTripleLE jsMonth
    dsimp only
    omega
  · unfold dateInSyncWindow dateTripleLE jsMonth
    dsimp only
    omega
  · intro d h2
    unfold dateInSyncWindow dateTripleLE jsMonth
    dsimp only
    omega
  · intro w now s
    exact syncDataRun_facts w now s

/-- C3 witness: instantiating the amended window property in May 2024 —
April 17 (previous month) is inside the fetched range, June 2 (next
month, past its first day) is not. -/
theorem syncWindow_amended_witness :
    (0 : ℤ) ≤ 4 ∧ (4 : ℤ) < 12
    ∧ syncWindow 2024 4
        = (isoFirstOfMonth (jsMonth 2024 3), isoFirstOfMonth (jsMonth 2024 5))
    ∧ dateInSyncWindow 2024 4 (2024, 3, 17)
    ∧ ¬ dateInSyncWindow 2024 4 (2024, 5, 2) :=
  have h := syncWindow_amended 2024 4 (by decide) (by decide)
  ⟨by decide, by decide, h.1, h.2.1 17 (by decide) (by decide), h.2.2.2.2.1 2 (by decide)⟩

/-- C8.  Per-occurrence failure isolation: whenever the events fetch
succeeds (which requires authentication), the batched retrieval succeeds
too, every occurrence contributing its fetched samples with a failed
per-occurrence fetch degraded to the empty list; and a whole `syncData`
pass fails exactly on an authentication / master-data / occurrences-fetch
error, never on a per-occurrence sample failure. -/
theorem per_occurrence_isolation (w : Upstream) (a b : String) (now : Now) (s : Store) :
    (getAllFactsForDateRange w a b
      = match getEvents w a b with
        | .error e => .error e
        | .ok evs => .ok (evs, evs.flatMap fun e =>
            if e.id ≠ 0 then recoverEmpty (w.factsFor e.id) else []))
    ∧ ((syncData w now none ⟨false⟩ s).1
        = match getMasterData w with
          | .error e => .error e
          | .ok _ =>
            match getAllFactsForDateRange w (syncWindow now.y now.m0).1
                (syncWindow now.y now.m0).2 with
            | .error e => .error e
            | .ok _ => .ok .completed) := by
  constructor
  · unfold getAllFactsForDateRange fetchFactsBatched
    cases hev : getEvents w a b with
    | error e => rfl
    | ok evs =>
      have hw : w.auth = true := by
        by_contra hna
        simp [getEvents, hna] at hev
      have hfb := fetchFactsBatchedFuel_ok w hw evs.length evs (le_refl _)
      simp [Bind.bind, Except.bind, hfb, pure, Except.pure]
  · exact syncDataRun_outcome w now s

/-- C4.  The claimed sum decomposition fails on the code: a sample whose
occurrence starts at 18:00 on December 31 is counted by the December
monthly sum (full-year range) but not by `getYearlySum`, whose upper
bound `datetime('YYYY-12-31')` is the midnight that starts December 31 —
so the yearly sum (0, over an empty selection) differs from the sum of
the monthly sums of the year (5). -/
theorem yearly_sum_dec31_divergence :
    getYearlySum dec31Store 1 2024 none = (0, 0)
    ∧ getMonthlyAggregateByFact dec31Store 1 ⟨2024, 1, 1, 0, 0, 0⟩
        ⟨2024, 12, 31, 23, 59, 59⟩ none = [((2024, 12), (5 : ℚ), 1)]
    ∧ monthlyYearTotal dec31Store 1 ⟨2024, 1, 1, 0, 0, 0⟩
        ⟨2024, 12, 31, 23, 59, 59⟩ none 2024 = 5
    ∧ (getYearlySum dec31Store 1 2024 none).1
        ≠ monthlyYearTotal dec31Store 1 ⟨2024, 1, 1, 0, 0, 0⟩
            ⟨2024, 12, 31, 23, 59, 59⟩ none 2024 := by
  have h2 : getMonthlyAggregateByFact dec31Store 1 ⟨2024, 1, 1, 0, 0, 0⟩
      ⟨2024, 12, 31, 23, 59, 59⟩ none = [((2024, 12), (5 : ℚ), 1)] := by
    simp +decide [getMonthlyAggregateByFact, aggRows, dec31Store, lookupRow,
      parseSqlDateTime, parseDateChars, parseTimePart, digitVal, parse2, dtLE,
      nameMatches, sortBy, insertBy, sumVals, monthKeyLE, List.dedup]
  have h3 : monthlyYearTotal dec31Store 1 ⟨2024, 1, 1, 0, 0, 0⟩
      ⟨2024, 12, 31, 23, 59, 59⟩ none 2024 = 5 := by
    rw [monthlyYearTotal, h2]
    norm_num
  have h1 : getYearlySum dec31Store 1 2024 none = (0, 0) := by decide
  refine ⟨h1, h2, h3, ?_⟩
  rw [h1, h3]
  norm_num

/-- C6 counterexample.  A store-write failure right after the pass
inserted its first occurrence: the error is propagated, yet the already
persisted occurrence carries the fresh `created_at`, so the watermark
read by `getLastSyncTime` jumps from 100 to 200 — the failed pass
advanced it, refuting the claim. -/
theorem failed_pass_advances_watermark :
    (syncData failWorld failNow (some 1) ⟨false⟩ oldEventStore).1 = .error storeWriteError
    ∧ getLastSyncTime oldEventStore = some 100
    ∧ getLastSyncTime (syncData failWorld failNow (some 1) ⟨false⟩ oldEventStore).2.2 = some 200
    ∧ getLastSyncTime (syncData failWorld failNow (some 1) ⟨false⟩ oldEventStore).2.2
        ≠ getLastSyncTime oldEventStore := by
  refine ⟨rfl, by decide, by decide, ?_⟩
  intro hcontra
  rw [show getLastSyncTime (syncData failWorld failNow (some 1) ⟨false⟩ oldEventStore).2.2
      = some 200 from by decide,
    show getLastSyncTime oldEventStore = some 100 from by decide] at hcontra
  exact absurd (Option.some.inj hcontra) (by decide)

/-- C6 amended.  When a store write fails partway through a pass, the
error is propagated to the trigger, the pass aborts with the flag
released, and the watermark is unchanged when the failure precedes the
first occurrence insert; occurrences persisted before the failure keep
their fresh creation timestamps (so a later failure can advance the
watermark, as the counterexample shows). -/
theorem store_failure_abort_amended (w : Upstream) (now : Now) (k : ℕ) (s : Store)
    (md : CTMasterData) (evs : List CTEvent) (efs : List CTEventFact)
    (hmd : getMasterData w = .ok md)
    (hfetch : getAllFactsForDateRange w (syncWindow now.y now.m0).1
        (syncWindow now.y now.m0).2 = .ok (evs, efs))
    (hk : k < (factWrites md).length + (eventWrites evs ++ efWrites evs efs).length) :
    (syncData w now (some k) ⟨false⟩ s).1 = .error storeWriteError
    ∧ (syncData w now (some k) ⟨false⟩ s).2.1 = ⟨false⟩
    ∧ (k ≤ (factWrites md).length →
        getLastSyncTime (syncData w now (some k) ⟨false⟩ s).2.2 = getLastSyncTime s) := by
  have hrun : syncData w now (some k) ⟨false⟩ s = syncDataRun w now (some k) s := rfl
  rw [hrun]
  unfold syncDataRun
  rw [hmd]
  dsimp only
  by_cases hlt : k < (factWrites md).length
  · simp only [cutWrites, if_pos hlt]
    exact ⟨trivial, trivial, fun _ => getLastSyncTime_congr (events_unchanged_by_factWrites _ _ _ _)⟩
  · simp only [cutWrites, if_neg hlt]
    rw [hfetch]
    dsimp only
    have h2 : k - (factWrites md).length < (eventWrites evs ++ efWrites evs efs).length := by
      omega
    simp only [Option.map_some', cutWrites, if_pos h2]
    refine ⟨trivial, trivial, fun hle => ?_⟩
    have hk0 : k = (factWrites md).length := le_antisymm hle (not_lt.mp hlt)
    have hev : (applyPayload now.ts (factWrites md) s).events = s.events := by
      have h := events_unchanged_by_factWrites now.ts md (factWrites md).length s
      rwa [List.take_length] at h
    simp only [hk0, Nat.sub_self, List.take_zero]
    exact getLastSyncTime_congr (by simpa [applyPayload] using hev)

/-- C6 witness: the amended property instantiated at a failure injected
before any write of a pass that would insert one occurrence and one
sample — the outcome is the propagated error, the flag is released, and
the watermark is untouched. -/
theorem store_failure_abort_amended_witness :
    getMasterData failWorld = .ok ⟨none⟩
    ∧ getAllFactsForDateRange failWorld (syncWindow failNow.y failNow.m0).1
        (syncWindow failNow.y failNow.m0).2 = .ok ([newEvent], [newSample])
    ∧ 0 < (factWrites ⟨none⟩).length
        + (eventWrites [newEvent] ++ efWrites [newEvent] [newSample]).length
    ∧ ((syncData failWorld failNow (some 0) ⟨false⟩ oldEventStore).1 = .error storeWriteError
       ∧ (syncData failWorld failNow (some 0) ⟨false⟩ oldEventStore).2.1 = ⟨false⟩
       ∧ (0 ≤ (factWrites (⟨none⟩ : CTMasterData)).length →
           getLastSyncTime (syncData failWorld failNow (some 0) ⟨false⟩ oldEventStore).2.2
             = getLastSyncTime oldEventStore)) :=
  ⟨rfl, rfl, by decide,
    store_failure_abort_amended failWorld failNow 0 oldEventStore ⟨none⟩ [newEvent] [newSample]
      rfl rfl (by decide)⟩

/-- C10 counterexample.  An invocation that returns early because a sync
was already running completes with the running flag still `true` (it is
owned by the in-progress run and the early exit happens before the
`try`/`finally`), refuting "the flag is false after any invocation
completes". -/
theorem early_return_keeps_flag_set :
    (syncData idleWorld busyNow none ⟨true⟩ emptyStore).2.1.isSyncing = true
    ∧ (syncYear idleWorld 2023 0 none ⟨true⟩ emptyStore).2.1.isSyncing = true :=
  ⟨rfl, rfl⟩

/-- C10 amended.  Any invocation of `syncData` or `syncYear` that enters
the guarded body (the flag was clear) ends with the flag clear, whether
the pass completes, aborts on a fetch error, or aborts on an injected
store-write failure; an early-returned invocation leaves the flag exactly
as it found it.  Hence a failed or aborted pass never permanently blocks
later sync triggers. -/
theorem flag_release_amended (w : Upstream) (now : Now) (f : Option ℕ)
    (year : ℤ) (ts : ℕ) (s : Store) :
    (syncData w now f ⟨false⟩ s).2.1.isSyncing = false
    ∧ (syncYear w year ts f ⟨false⟩ s).2.1.isSyncing = false
    ∧ (syncData w now f ⟨true⟩ s).2.1.isSyncing = true
    ∧ (syncYear w year ts f ⟨true⟩ s).2.1.isSyncing = true := by
  refine ⟨?_, ?_, rfl, rfl⟩
  · show (syncDataRun w now f s).2.1.isSyncing = false
    rw [syncDataRun_flag]
  · show (syncYearRun w year ts f s).2.1.isSyncing = false
    rw [syncYearRun_flag]

end CTFacts
